import Mathlib

set_option autoImplicit false

namespace ZosProvision

/-
Shallow embedding of the workload provisioning engine:
 - reservation data model: src/unnamed/part_003
 - on-disk reservation store FSStore: src/pkg/provision/local_store.go
 - engine loop: src/unnamed/part_005
 - janitor: src/pkg/provision/cleanup.go
Times (time.Time) and durations (time.Duration) are modelled as Int
nanoseconds, matching Go's int64 representation.
-/

/-- ReservationType (part_003 line 19); in Go it is a named string type. -/
abbrev ReservationType := String

/-- ContainerReservation constant (part_003). -/
def ContainerReservation : ReservationType := "container"

/-- VolumeReservation constant (part_003). -/
def VolumeReservation : ReservationType := "volume"

/-- NetworkReservation constant (part_003). -/
def NetworkReservation : ReservationType := "network"

/-- ZDBReservation constant (part_003). -/
def ZDBReservation : ReservationType := "zdb"

/-- DebugReservation constant (part_003). -/
def DebugReservation : ReservationType := "debug"

/-- KubernetesReservation constant (part_003). -/
def KubernetesReservation : ReservationType := "kubernetes"

/-- The closed list of reservation type constants declared in part_003
lines 18 to 34. -/
def reservationTypes : List ReservationType :=
  [ContainerReservation, VolumeReservation, NetworkReservation,
   ZDBReservation, DebugReservation, KubernetesReservation]

/-- Reservation (part_003 lines 44 to 69). `created` is `time.Time`
(its zero value is 0, matching `Created.IsZero`), `duration` is a
`time.Duration` (an int64, possibly negative). The opaque fields
`NodeID`, `Data`, `Signature` and the debug-only `Tag` (json tag "-")
play no role in the verified claims and carry no behaviour in the
modelled functions, so they are left out of the record. -/
structure Reservation where
  id : String
  user : String
  type : ReservationType
  created : Int
  duration : Int
  toDelete : Bool
deriving Repr, DecidableEq

/-- Reservation.Expired (part_003 lines 121 to 124):
`time.Now().After(r.Created.Add(r.Duration))`, that is, the current time
is strictly after `created + duration`. -/
def Reservation.expired (r : Reservation) (now : Int) : Bool :=
  decide (r.created + r.duration < now)

/-- Reservation.validate (part_003 lines 126 to 149). The signature
verification block is commented out in the source. Note that the source
performs no check that `r.type` belongs to the closed type set. -/
def Reservation.validate (r : Reservation) (now : Int) : Except String Unit :=
  if r.duration ≤ 0 then .error ("reservation " ++ r.id ++ " has not duration")
  else if r.created = 0 then .error ("wrong creation date in reservation " ++ r.id)
  else if r.expired now then .error ("reservation " ++ r.id ++ " has expired")
  else .ok ()

/-- True when `validate` returned no error. -/
def Reservation.validateOk (r : Reservation) (now : Int) : Bool :=
  match r.validate now with
  | .ok _ => true
  | .error _ => false

/-- Spec wording for claim C2: `expired = now ≥ created + duration`.
Written from the spec sentence, to be compared with the source's
`Reservation.expired`. -/
def specExpired (r : Reservation) (now : Int) : Bool :=
  decide (r.created + r.duration ≤ now)

/-- Spec wording for claim C5: a reservation is valid iff duration > 0,
created is non-zero, the current time is before expiry, and the type is
a member of the closed set. Written from the spec sentence, to be
compared with the source's `Reservation.validate`. -/
def specValid (r : Reservation) (now : Int) : Bool :=
  decide (0 < r.duration) && decide (r.created ≠ 0) &&
    decide (now < r.created + r.duration) && reservationTypes.contains r.type

/- Association list helpers shared by the store model (one on-disk file
per reservation id) and the dedup cache model (one entry per id). -/

/-- Find the value stored under a key. -/
def assocFind {β : Type} : List (String × β) → String → Option β
  | [], _ => none
  | (k, v) :: rest, key => if k = key then some v else assocFind rest key

/-- Drop the first entry stored under a key (a filesystem holds at most
one file per name, and go-cache holds at most one item per key). -/
def assocErase {β : Type} : List (String × β) → String → List (String × β)
  | [], _ => []
  | (k, v) :: rest, key => if k = key then rest else (k, v) :: assocErase rest key

/-- Counters (local_store.go lines 88 to 100): the per workload type
counters of the store. The resource unit counters SRU/HRU/MRU/CRU are
mutated only by `processResourceUnits`, whose body lives outside
local_store.go and never touches the per type counters, so they are not
part of this model. -/
structure Counters where
  containers : Int
  volumes : Int
  networks : Int
  zdb : Int
  vm : Int
  debug : Int
deriving Repr, DecidableEq

/-- counterFor followed by Increment (local_store.go lines 171 to 189):
the switch maps the six known types to their counters, Kubernetes to the
`vm` counter, and any other type to `counterNop`, which ignores the
increment. -/
def Counters.incrFor (c : Counters) (t : ReservationType) : Counters :=
  if t = ContainerReservation then { c with containers := c.containers + 1 }
  else if t = VolumeReservation then { c with volumes := c.volumes + 1 }
  else if t = NetworkReservation then { c with networks := c.networks + 1 }
  else if t = ZDBReservation then { c with zdb := c.zdb + 1 }
  else if t = DebugReservation then { c with debug := c.debug + 1 }
  else if t = KubernetesReservation then { c with vm := c.vm + 1 }
  else c

/-- counterFor followed by Decrement (local_store.go lines 171 to 189
and 243). -/
def Counters.decrFor (c : Counters) (t : ReservationType) : Counters :=
  if t = ContainerReservation then { c with containers := c.containers - 1 }
  else if t = VolumeReservation then { c with volumes := c.volumes - 1 }
  else if t = NetworkReservation then { c with networks := c.networks - 1 }
  else if t = ZDBReservation then { c with zdb := c.zdb - 1 }
  else if t = DebugReservation then { c with debug := c.debug - 1 }
  else if t = KubernetesReservation then { c with vm := c.vm - 1 }
  else c

/-- FSStore (local_store.go lines 81 to 101): the files under the store
root (one file per reservation id, holding the reservation) and the
counters. The RWMutex serialises the operations; the model applies them
sequentially. -/
structure FSStore where
  files : List (String × Reservation)
  counters : Counters
deriving Repr, DecidableEq

/-- The store right after construction on an empty root directory. -/
def emptyFSStore : FSStore :=
  { files := [], counters := ⟨0, 0, 0, 0, 0, 0⟩ }

/-- FSStore.Add (local_store.go lines 192 to 222): exclusive-create the
file named by the id (failing with an `already in the store` error when
it exists), write the reservation, then increment the type counter.
`processResourceUnits` only adjusts the resource unit counters, see
`Counters`. -/
def FSStore.add (s : FSStore) (r : Reservation) : Except String FSStore :=
  match assocFind s.files r.id with
  | some _ => .error ("reservation " ++ r.id ++ " already in the store")
  | none => .ok { files := s.files ++ [(r.id, r)],
                  counters := s.counters.incrFor r.type }

/-- FSStore.Remove (local_store.go lines 225 to 249): read the stored
reservation (a missing file makes Remove a no-op), delete the file, then
decrement the counter for the stored reservation's type. -/
def FSStore.remove (s : FSStore) (id : String) : FSStore :=
  match assocFind s.files id with
  | none => s
  | some r => { files := assocErase s.files id,
                counters := s.counters.decrFor r.type }

/-- One mutating store operation. -/
inductive StoreOp where
  | add (r : Reservation)
  | remove (id : String)

/-- Apply one operation; a failing Add (duplicate id) surfaces its error
to the caller and leaves the store untouched. -/
def FSStore.applyOp (s : FSStore) : StoreOp → FSStore
  | .add r =>
    match s.add r with
    | .ok s2 => s2
    | .error _ => s
  | .remove id => s.remove id

/-- Run a sequence of store operations from a given state. -/
def FSStore.runOps (s : FSStore) (ops : List StoreOp) : FSStore :=
  ops.foldl FSStore.applyOp s

/-- Number of persisted reservations of a given type in a file list. -/
def typeCountL : List (String × Reservation) → ReservationType → Nat
  | [], _ => 0
  | (_, v) :: rest, t => (if v.type = t then 1 else 0) + typeCountL rest t

/-- Number of persisted reservations of a given type in the store. -/
def FSStore.typeCount (s : FSStore) (t : ReservationType) : Nat :=
  typeCountL s.files t

/-- pkg.ProvisionCounters as filled by FSStore.GetCounters
(local_store.go lines 155 to 169). -/
structure ProvisionCounters where
  container : Int
  volume : Int
  network : Int
  zdb : Int
  vm : Int
  debug : Int
deriving Repr, DecidableEq

/-- FSStore.GetCounters (local_store.go lines 155 to 169). -/
def FSStore.getCounters (s : FSStore) : ProvisionCounters :=
  { container := s.counters.containers
    volume := s.counters.volumes
    network := s.counters.networks
    zdb := s.counters.zdb
    vm := s.counters.vm
    debug := s.counters.debug }

/- Versioned on-disk records (claim C8). The header parsing lives in
pkg/versioned, which is not under src/; local_store.go only consumes it
through NewReader, IsNotVersioned and NewVersionedReader. -/

/-- Semantic version, as used by pkg/versioned records. -/
structure SemVer where
  major : Nat
  minor : Nat
  patch : Nat
deriving Repr, DecidableEq

/-- Lexicographic order on versions, the meaning of the semver range
check built by `MustParseRange("<=1.0.0")` in local_store.go line 325. -/
def SemVer.le (a b : SemVer) : Prop :=
  a.major < b.major ∨
    (a.major = b.major ∧
      (a.minor < b.minor ∨ (a.minor = b.minor ∧ a.patch ≤ b.patch)))

instance (a b : SemVer) : Decidable (SemVer.le a b) := by
  unfold SemVer.le; infer_instance

/-- Strict lexicographic order on versions ("greater than 1.0.0" in the
claim is `SemVer.lt reservationSchemaV1 v`). -/
def SemVer.lt (a b : SemVer) : Prop :=
  a.major < b.major ∨
    (a.major = b.major ∧
      (a.minor < b.minor ∨ (a.minor = b.minor ∧ a.patch < b.patch)))

instance (a b : SemVer) : Decidable (SemVer.lt a b) := by
  unfold SemVer.lt; infer_instance

/-- reservationSchemaV1 (part_003 line 38): version 1.0.0. -/
def reservationSchemaV1 : SemVer := ⟨1, 0, 0⟩

/-- One on-disk record as seen by FSStore.get after the raw bytes have
been read. Modelled from the spec: the versioned record format of
pkg/versioned (not under src/) is a magic header plus an ascii semver
followed by the payload; a file without the versioned header is a legacy
record whose whole content is the JSON payload. `header` is the parsed
version when the header is present; `payload` is the result of JSON
decoding the payload bytes (`none` when they do not decode). -/
structure DiskRecord where
  header : Option SemVer
  payload : Option Reservation
deriving Repr, DecidableEq

/-- The version the reader reports for a record: the header version, or
0.0.0 for a legacy file, for which local_store.go lines 318 to 323 seek
back to the start of the file and read the payload from there. -/
def readerVersion (f : DiskRecord) : SemVer :=
  f.header.getD ⟨0, 0, 0⟩

/-- FSStore.get (local_store.go lines 307 to 337), after the file bytes
have been read: records whose version passes the `<=1.0.0` range check
are JSON decoded, anything else fails with the unknown version error.
The `Tag` the source attaches to the returned reservation is debug-only
metadata outside the model. -/
def FSStore.getRecord (f : DiskRecord) : Except String Reservation :=
  if SemVer.le (readerVersion f) reservationSchemaV1 then
    match f.payload with
    | some r => .ok r
    | none => .error "failed to decode reservation"
  else .error "unknown reservation object version"

/- The engine loop (src/unnamed/part_005). -/

/-- The default expiration of the engine's dedup cache:
`cache.New(30*time.Minute, time.Minute)` (part_005 line 56), in
nanoseconds. -/
def cacheDefaultTTL : Int := 30 * 60 * 1000000000

/-- go-cache Get at time `now`: an item is returned when it is present
and either has no expiration (non-positive) or has not yet expired
(`now ≤ expiration`; go-cache drops it only when `now` is strictly past
the stored deadline). -/
def cacheGet (mem : List (String × Int)) (id : String) (now : Int) : Bool :=
  match assocFind mem id with
  | none => false
  | some exp => decide (exp ≤ 0) || decide (now ≤ exp)

/-- go-cache Set with DefaultExpiration at time `now`: store the entry
under the id with deadline `now + cacheDefaultTTL`, replacing any
previous entry. -/
def cacheSet (mem : List (String × Int)) (id : String) (now : Int) :
    List (String × Int) :=
  (id, now + cacheDefaultTTL) :: assocErase mem id

/-- Observable state of one engine loop (part_005). `mem` is the dedup
cache, `allProcessed` the isAllWorkloadsProcessed latch, and the
remaining fields record the externally visible calls the loop makes:
provisioner invocations, decommissioner invocations, janitor cleanup
invocations, reservation ids persisted to a store (the Engine struct of
this revision holds no store reference and no branch of Run writes one,
so nothing ever appends to `store`), and error log lines. -/
structure EngineState where
  mem : List (String × Int)
  allProcessed : Bool
  provisionCalls : List String
  decommCalls : List String
  cleanupCalls : Nat
  store : List String
  logs : List String
deriving Repr, DecidableEq

/-- Engine state at the top of Run: empty cache, latch clear, no calls
made yet. -/
def engineInit : EngineState :=
  { mem := [], allProcessed := false, provisionCalls := [],
    decommCalls := [], cleanupCalls := 0, store := [], logs := [] }

/-- One item the select loop of Engine.Run reacts to: a reservation job
from the source (carrying the `last` sentinel flag), or a receipt on the
cleanUp channel from the midnight cron tick. -/
inductive SourceItem where
  | res (last : Bool) (r : Reservation)
  | tick

/-- True exactly for the `last=true` sentinel event. -/
def SourceItem.isLast : SourceItem → Bool
  | .res last _ => last
  | .tick => false

/-- The cleanUp branch of Engine.Run (part_005 lines 140 to 157): a
trigger is dropped while the latch is clear, skipped when no janitor is
configured, and otherwise invokes janitor.Cleanup; a cleanup error is
logged and the loop continues, so the state transition is the same. -/
def doCleanup (hasJanitor : Bool) (st : EngineState) : EngineState :=
  if st.allProcessed = false then st
  else if hasJanitor = false then st
  else { st with cleanupCalls := st.cleanupCalls + 1 }

/-- One iteration of the select loop of Engine.Run (part_005 lines 78 to
158) on an item arriving at time `now`. `decommFails` and `provFails`
tell, per reservation id, whether the decommissioner or provisioner call
returns an error; either way the loop logs and continues. On the
sentinel the code sets the latch and pushes a trigger onto the cleanUp
channel (capacity 2); the model consumes that trigger right away, which
matches any schedule in which the source yields no further item before
the select picks the trigger up. The two cache checks and two cache
writes on the provisioning path are exactly the ones at part_005 lines
115, 119, 127 and 132. -/
def stepEngine (hasJanitor : Bool) (decommFails provFails : String → Bool)
    (st : EngineState) (ev : Int × SourceItem) : EngineState :=
  match ev with
  | (_, .tick) => doCleanup hasJanitor st
  | (_, .res true _) => doCleanup hasJanitor { st with allProcessed := true }
  | (now, .res false r) =>
    if r.expired now || r.toDelete then
      let st1 := { st with decommCalls := st.decommCalls ++ [r.id] }
      if decommFails r.id then
        { st1 with logs := st1.logs ++ ["failed to decommission reservation"] }
      else st1
    else if cacheGet st.mem r.id now then st
    else
      let m1 := cacheSet st.mem r.id now
      if cacheGet m1 r.id now then { st with mem := m1 }
      else
        let m2 := cacheSet m1 r.id now
        match r.validate now with
        | .error _ =>
          { st with mem := m2,
                    logs := st.logs ++ ["failed to provision reservation"] }
        | .ok _ =>
          let st2 := { st with mem := m2,
                               provisionCalls := st.provisionCalls ++ [r.id] }
          if provFails r.id then
            { st2 with logs := st2.logs ++ ["failed to provision reservation"] }
          else st2

/-- Run the engine loop over a sequence of timestamped items. -/
def runEngine (hasJanitor : Bool) (decommFails provFails : String → Bool)
    (st : EngineState) (evs : List (Int × SourceItem)) : EngineState :=
  evs.foldl (stepEngine hasJanitor decommFails provFails) st

/-- Oracle under which no provisioner or decommissioner call fails. -/
def noFail : String → Bool := fun _ => false

/- The janitor (src/pkg/provision/cleanup.go). -/

/-- Everything the janitor learns from one authoritative lookup
(`j.getter.Get(id)`): the reservation was found (with its ToDelete
flag), or the call failed with a client.HTTPError carrying a status
code, or it failed with some other error. -/
inductive LookupResult where
  | found (toDelete : Bool)
  | httpErrorCode (status : Nat)
  | plainError

/-- Janitor.checkToDelete (cleanup.go lines 132 to 150): an HTTP 404
means the reservation no longer exists and the resource should be
deleted; any other failure is surfaced as an error; otherwise the
reservation's own ToDelete flag decides. -/
def checkToDelete : LookupResult → Except Unit Bool
  | .found td => .ok td
  | .httpErrorCode status => if status = 404 then .ok true else .error ()
  | .plainError => .error ()

/-- A mount of a running container (pkg.ContainerInfo.Mounts entry);
only the source path matters to the janitor. -/
structure ContainerMount where
  source : String
deriving Repr, DecidableEq

/-- What Inspect reports about one running container: its root
filesystem path and its mounts. -/
structure ContainerInspect where
  rootFS : String
  mounts : List ContainerMount
deriving Repr, DecidableEq

/-- Janitor.protectedVolumesFromContainers (cleanup.go lines 342 to
384): for every running container (the source walks all container
namespaces and inspects every container) mark its root filesystem and
every mount whose source starts with "/mnt/" as protected. -/
def protectedVolumesFromContainers (containers : List ContainerInspect) :
    List String :=
  containers.foldl
    (fun acc c =>
      acc ++ [c.rootFS] ++
        (c.mounts.filter (fun m => m.source.startsWith "/mnt/")).map
          (fun m => m.source))
    []

/-- One filesystem as listed by storaged.ListFilesystems (pkg.Filesystem);
the janitor uses its name (the reservation id for workload subvolumes)
and its path. -/
structure VolumeFS where
  name : String
  path : String
deriving Repr, DecidableEq

/-- Modelled from the spec: storage.ZDBPoolPrefix, the name prefix of
object-store pool subvolumes; the storage package is not under src/. Its
concrete value is irrelevant to the verified claims. -/
def zdbPoolNamePfx : String := "zdb"

/-- Decision of Janitor.cleanupVolumes (cleanup.go lines 187 to 272) for
one volume: protected paths are skipped first; then the legacy name
patterns (64 character names, object-store pool names, the literal
"fcvms") are unconditionally deleted; otherwise the authoritative lookup
via checkToDelete decides, a lookup error keeping the volume. -/
inductive CleanAction where
  | keep
  | delete
deriving Repr, DecidableEq

/-- The per volume decision of Janitor.cleanupVolumes. -/
def volumeAction (prot : List String) (lookup : String → LookupResult)
    (v : VolumeFS) : CleanAction :=
  if v.path ∈ prot then .keep
  else if v.name.length = 64 then .delete
  else if v.name.startsWith zdbPoolNamePfx then .delete
  else if v.name = "fcvms" then .delete
  else
    match checkToDelete (lookup v.name) with
    | .ok true => .delete
    | .ok false => .keep
    | .error _ => .keep

/-- Janitor.cleanupVolumes: compute the protected set from the running
containers, then release every volume whose decision is delete. The
returned list holds the volumes the run deletes. -/
def cleanupVolumes (containers : List ContainerInspect)
    (lookup : String → LookupResult) (volumes : List VolumeFS) :
    List VolumeFS :=
  let prot := protectedVolumesFromContainers containers
  volumes.filter (fun v => volumeAction prot lookup v == .delete)

/-- Repeated cleanup runs: each run recomputes the protected set from
the (still running) containers and may see different authoritative
lookup answers. Returns the per run deletion lists. -/
def janitorVolumeRuns (containers : List ContainerInspect)
    (lookups : List (String → LookupResult)) (volumes : List VolumeFS) :
    List (List VolumeFS) :=
  lookups.map (fun lookup => cleanupVolumes containers lookup volumes)

/-- One virtual disk as listed by the vdisk module; the janitor only
uses its name. -/
structure VDisk where
  name : String
deriving Repr, DecidableEq

/-- vdiskIDMatch.FindString on a name, for the anchored pattern
`(\d+-\d+)` at the start of the name (cleanup.go line 22): the maximal
leading digit run, a hyphen, then another maximal digit run; the empty
result of FindString is `none` here. -/
def extractVdiskID (s : String) : Option String :=
  let d1 := s.toList.takeWhile Char.isDigit
  let rest := s.toList.drop d1.length
  match d1, rest with
  | [], _ => none
  | _, [] => none
  | _ :: _, c :: cs =>
    if c = '-' then
      match cs.takeWhile Char.isDigit with
      | [] => none
      | d2 => some (String.mk (d1 ++ '-' :: d2))
    else none

/-- Outcome of Janitor.cleanupVdisks (cleanup.go lines 152 to 185) for
one disk: names without a valid id prefix are warned about and skipped
(not candidates); for candidates a checkToDelete error is logged and the
disk kept, processing continuing with the next one; otherwise the
returned flag decides between Deallocate and keep. -/
inductive VdiskOutcome where
  | notCandidate
  | keep
  | delete
deriving Repr, DecidableEq

/-- The per disk outcome of Janitor.cleanupVdisks. -/
def vdiskOutcome (lookup : String → LookupResult) (v : VDisk) : VdiskOutcome :=
  match extractVdiskID v.name with
  | none => .notCandidate
  | some gwid =>
    match checkToDelete (lookup gwid) with
    | .error _ => .keep
    | .ok true => .delete
    | .ok false => .keep

/-- Helper for pubIPIDMatch: match the `\d+-1` part of the interface
name (one or more digits, a hyphen, the literal digit 1, end of string)
and return the digit run. -/
def pubIPTail : List Char → Option (List Char)
  | [] => none
  | c :: cs =>
    if c.isDigit then
      if cs = ['-', '1'] then some [c]
      else (pubIPTail cs).map (fun ds => c :: ds)
    else none

/-- Character-level matcher for the whole pattern `^p-(\d+-1)$`: the
name must start with the two characters p and hyphen, followed by a
`pubIPTail` match; returns the captured group (the part after "p-"). -/
def pubIPMatchL : List Char → Option (List Char)
  | c1 :: c2 :: rest =>
    if c1 = 'p' ∧ c2 = '-' then
      (pubIPTail rest).map (fun ds => ds ++ ['-', '1'])
    else none
  | _ => none

/-- pubIPIDMatch.FindStringSubmatch (cleanup.go line 23): the source
regular expression is `^p-(\d+-1)$` and cleanupPublicIPs uses the
captured group `m[1]` as the reservation id (cleanup.go lines 86 to 90).
Returns the captured group when the whole name matches. -/
def pubIPIDMatch (name : String) : Option String :=
  (pubIPMatchL name.toList).map String.mk

/-- Spec wording for claim C9: the regular expression `^p-(\d+-\d+)$`
with the captured group as the id. Written from the spec sentence, to be
compared with the source's `pubIPIDMatch`. `specPubIPTail` matches
`\d+-\d+` (greedily, as the anchored regex does). -/
def specPubIPTail : List Char → Option (List Char)
  | [] => none
  | c :: cs =>
    if c.isDigit then
      match cs with
      | '-' :: ds2 =>
        if ds2 ≠ [] ∧ ds2.all Char.isDigit then some (c :: '-' :: ds2)
        else none
      | _ => (specPubIPTail cs).map (fun ds => c :: ds)
    else none

/-- Spec wording for claim C9, whole name matcher for `^p-(\d+-\d+)$`. -/
def specPubIPMatch (name : String) : Option String :=
  match name.toList with
  | c1 :: c2 :: rest =>
    if c1 = 'p' ∧ c2 = '-' then (specPubIPTail rest).map String.mk
    else none
  | _ => none

/-- Janitor.cleanupPublicIPs (cleanup.go lines 77 to 106): the tap
candidates among the listed links, as pairs of interface name and the
reservation id the janitor derives for it. Interfaces whose name the
regular expression rejects are skipped before any lookup. -/
def pubIPCandidates (links : List String) : List (String × String) :=
  links.filterMap (fun nm => (pubIPIDMatch nm).map (fun id => (nm, id)))

/-- Janitor.cleanupPublicIPs deletions: a candidate tap is disconnected
exactly when checkToDelete answers true; on a lookup error the returned
flag is false and the link is kept (the error is additionally logged). -/
def cleanupPublicIPs (lookup : String → LookupResult) (links : List String) :
    List String :=
  links.filterMap (fun nm =>
    match pubIPIDMatch nm with
    | none => none
    | some id =>
      match checkToDelete (lookup id) with
      | .ok true => some id
      | _ => none)

/-- The store counters agree with the persisted files: each of the six
counters equals the number of stored reservations of the type it tallies
(Kubernetes reservations are tallied by the `vm` counter, see
`Counters.incrFor`). -/
def countersOK (s : FSStore) : Prop :=
  s.counters.containers = (typeCountL s.files ContainerReservation : Int) ∧
  s.counters.volumes = (typeCountL s.files VolumeReservation : Int) ∧
  s.counters.networks = (typeCountL s.files NetworkReservation : Int) ∧
  s.counters.zdb = (typeCountL s.files ZDBReservation : Int) ∧
  s.counters.vm = (typeCountL s.files KubernetesReservation : Int) ∧
  s.counters.debug = (typeCountL s.files DebugReservation : Int)

/- Concrete inputs used by witnesses and counterexamples. -/

/-- A long-lived container reservation. -/
def rContA : Reservation :=
  ⟨"1-1", "user1", ContainerReservation, 10, 1000000000000, false⟩

/-- A long-lived volume reservation. -/
def rVolB : Reservation :=
  ⟨"2-1", "user1", VolumeReservation, 10, 1000000000000, false⟩

/-- A reservation whose expiry `created + duration` is exactly 8. -/
def rBoundary : Reservation :=
  ⟨"3-1", "user2", ContainerReservation, 3, 5, false⟩

/-- A reservation flagged for deletion. -/
def rToDelete : Reservation :=
  ⟨"12-1", "user2", ContainerReservation, 10, 1000000000000, true⟩

/-- A long-lived reservation the source emits twice. -/
def rDup : Reservation :=
  ⟨"11-1", "user3", ContainerReservation, 100, 1000000000000, false⟩

/-- A not yet expired reservation with positive duration, non-zero
creation date and a type outside the closed type set. -/
def rBogusType : Reservation :=
  ⟨"2-2", "user1", "bogus", 3, 5, false⟩

/-- The reservation record carried by the `last=true` sentinel event;
its payload fields are never read. -/
def sentinelRes : Reservation := ⟨"", "", "", 0, 0, false⟩

/-- The replay-then-cleanup scenario of claim C4: three historical
reservations, the sentinel, then one midnight tick. -/
def inputsC4 : List (Int × SourceItem) :=
  [(0, .res false rContA), (1, .res false rVolB), (2, .res false rDup),
   (3, .res true sentinelRes), (4, .tick)]

/-- A running container whose root filesystem is the subvolume of claim
C6's scenario and which mounts one volume from /mnt. -/
def contRunning : ContainerInspect :=
  ⟨"/mnt/volumes/abc", [⟨"/mnt/data/x"⟩]⟩

/-- A subvolume whose path serves as the root filesystem of
`contRunning` and whose name looks orphaned. -/
def volProtected : VolumeFS := ⟨"abc", "/mnt/volumes/abc"⟩

/-- An authoritative lookup that answers HTTP 404 for every id. -/
def lookup404 : String → LookupResult := fun _ => .httpErrorCode 404

/-- A legacy on-disk record: no versioned header, decodable payload. -/
def recLegacy : DiskRecord := ⟨none, some rContA⟩

/-- A versioned record with version 2.0.0, greater than 1.0.0. -/
def recV2 : DiskRecord := ⟨some ⟨2, 0, 0⟩, some rContA⟩

/- Theorems. Helper lemmas come first, then one theorem per claim. -/

theorem typeCountL_append (l : List (String × Reservation))
    (e : String × Reservation) (t : ReservationType) :
    typeCountL (l ++ [e]) t = typeCountL l t + (if e.2.type = t then 1 else 0) := by
  induction l with
  | nil => simp [typeCountL]
  | cons hd tl ih =>
    obtain ⟨k, v⟩ := hd
    show (if v.type = t then 1 else 0) + typeCountL (tl ++ [e]) t =
      ((if v.type = t then 1 else 0) + typeCountL tl t) + (if e.2.type = t then 1 else 0)
    rw [ih]
    omega

theorem typeCountL_erase (l : List (String × Reservation)) (id : String)
    (r : Reservation) (t : ReservationType) (hf : assocFind l id = some r) :
    typeCountL (assocErase l id) t + (if r.type = t then 1 else 0) = typeCountL l t := by
  induction l with
  | nil => simp [assocFind] at hf
  | cons hd tl ih =>
    obtain ⟨k, v⟩ := hd
    by_cases hk : k = id
    · simp only [assocFind, if_pos hk, Option.some.injEq] at hf
      subst hf
      simp only [assocErase, if_pos hk, typeCountL]
      omega
    · simp only [assocFind, if_neg hk] at hf
      simp only [assocErase, if_neg hk, typeCountL]
      have := ih hf
      omega

theorem incrFor_spec (c : Counters) (ty : ReservationType) :
    (c.incrFor ty).containers = c.containers + (if ty = ContainerReservation then 1 else 0) ∧
    (c.incrFor ty).volumes = c.volumes + (if ty = VolumeReservation then 1 else 0) ∧
    (c.incrFor ty).networks = c.networks + (if ty = NetworkReservation then 1 else 0) ∧
    (c.incrFor ty).zdb = c.zdb + (if ty = ZDBReservation then 1 else 0) ∧
    (c.incrFor ty).vm = c.vm + (if ty = KubernetesReservation then 1 else 0) ∧
    (c.incrFor ty).debug = c.debug + (if ty = DebugReservation then 1 else 0) := by
  unfold Counters.incrFor
  split_ifs <;>
    simp_all [ContainerReservation, VolumeReservation, NetworkReservation,
      ZDBReservation, DebugReservation, KubernetesReservation]

theorem decrFor_spec (c : Counters) (ty : ReservationType) :
    (c.decrFor ty).containers = c.containers - (if ty = ContainerReservation then 1 else 0) ∧
    (c.decrFor ty).volumes = c.volumes - (if ty = VolumeReservation then 1 else 0) ∧
    (c.decrFor ty).networks = c.networks - (if ty = NetworkReservation then 1 else 0) ∧
    (c.decrFor ty).zdb = c.zdb - (if ty = ZDBReservation then 1 else 0) ∧
    (c.decrFor ty).vm = c.vm - (if ty = KubernetesReservation then 1 else 0) ∧
    (c.decrFor ty).debug = c.debug - (if ty = DebugReservation then 1 else 0) := by
  unfold Counters.decrFor
  split_ifs <;>
    simp_all [ContainerReservation, VolumeReservation, NetworkReservation,
      ZDBReservation, DebugReservation, KubernetesReservation]

theorem countersOK_empty : countersOK emptyFSStore := by
  simp [countersOK, emptyFSStore, typeCountL]

theorem countersOK_applyOp (s : FSStore) (op : StoreOp) (h : countersOK s) :
    countersOK (s.applyOp op) := by
  obtain ⟨h1, h2, h3, h4, h5, h6⟩ := h
  cases op with
  | add r =>
    unfold FSStore.applyOp FSStore.add
    cases hf : assocFind s.files r.id with
    | some v =>
      simp only [hf]
      exact ⟨h1, h2, h3, h4, h5, h6⟩
    | none =>
      simp only [hf]
      obtain ⟨i1, i2, i3, i4, i5, i6⟩ := incrFor_spec s.counters r.type
      refine ⟨?_, ?_, ?_, ?_, ?_, ?_⟩ <;>
        simp only [i1, i2, i3, i4, i5, i6, typeCountL_append, h1, h2, h3, h4, h5, h6] <;>
        split_ifs <;> push_cast <;> ring
  | remove id =>
    unfold FSStore.applyOp FSStore.remove
    cases hf : assocFind s.files id with
    | none =>
      simp only [hf]
      exact ⟨h1, h2, h3, h4, h5, h6⟩
    | some r =>
      simp only [hf]
      obtain ⟨d1, d2, d3, d4, d5, d6⟩ := decrFor_spec s.counters r.type
      have e1 := typeCountL_erase s.files id r ContainerReservation hf
      have e2 := typeCountL_erase s.files id r VolumeReservation hf
      have e3 := typeCountL_erase s.files id r NetworkReservation hf
      have e4 := typeCountL_erase s.files id r ZDBReservation hf
      have e5 := typeCountL_erase s.files id r KubernetesReservation hf
      have e6 := typeCountL_erase s.files id r DebugReservation hf
      refine ⟨?_, ?_, ?_, ?_, ?_, ?_⟩
      · rw [d1, h1, ← e1]; split_ifs <;> push_cast <;> omega
      · rw [d2, h2, ← e2]; split_ifs <;> push_cast <;> omega
      · rw [d3, h3, ← e3]; split_ifs <;> push_cast <;> omega
      · rw [d4, h4, ← e4]; split_ifs <;> push_cast <;> omega
      · rw [d5, h5, ← e5]; split_ifs <;> push_cast <;> omega
      · rw [d6, h6, ← e6]; split_ifs <;> push_cast <;> omega

theorem countersOK_runOps (ops : List StoreOp) (s : FSStore)
    (h : countersOK s) : countersOK (FSStore.runOps s ops) := by
  induction ops generalizing s with
  | nil => exact h
  | cons op rest ih => exact ih _ (countersOK_applyOp s op h)

/-- Claim C1: for every sequence of store Add and Remove operations, at
every observation point, the per-type counter returned by the store
equals the number of reservations of that type currently persisted in
the store (Add on a reservation of type T increments the T-counter
exactly once and Remove of a stored reservation of type T decrements it
exactly once; the `vm` counter is the tally of Kubernetes reservations,
which is the type `counterFor` maps to it). The statement quantifies
over all operation sequences, so it holds at every observation point of
every run, distinct ids or not. -/
theorem claim_C1_store_counters_match (ops : List StoreOp) :
    (FSStore.runOps emptyFSStore ops).getCounters.container =
      ((FSStore.runOps emptyFSStore ops).typeCount ContainerReservation : Int) ∧
    (FSStore.runOps emptyFSStore ops).getCounters.volume =
      ((FSStore.runOps emptyFSStore ops).typeCount VolumeReservation : Int) ∧
    (FSStore.runOps emptyFSStore ops).getCounters.network =
      ((FSStore.runOps emptyFSStore ops).typeCount NetworkReservation : Int) ∧
    (FSStore.runOps emptyFSStore ops).getCounters.zdb =
      ((FSStore.runOps emptyFSStore ops).typeCount ZDBReservation : Int) ∧
    (FSStore.runOps emptyFSStore ops).getCounters.vm =
      ((FSStore.runOps emptyFSStore ops).typeCount KubernetesReservation : Int) ∧
    (FSStore.runOps emptyFSStore ops).getCounters.debug =
      ((FSStore.runOps emptyFSStore ops).typeCount DebugReservation : Int) :=
  countersOK_runOps ops emptyFSStore countersOK_empty

/-- Claim C5 counterexample: at time 8, the reservation rBogusType has
positive duration, non-zero creation date and is not Expired (8 is not
strictly after its expiry 8), so the source's validate accepts it, while
the claimed characterisation (current time strictly before expiry and
type in the closed set) rejects it on both counts: its type "bogus" lies
outside the closed set and the current time equals the expiry. -/
theorem claim_C5_counterexample :
    rBogusType.validateOk 8 = true ∧ specValid rBogusType 8 = false := by
  decide

/-- Claim C5 (amended): validate succeeds iff the duration is positive,
the creation date is non-zero, and the current time is not strictly
after created + duration (now ≤ created + duration); validate performs
no check that the type belongs to the closed set of workload types. In
particular a reservation with duration 0 is rejected. -/
theorem claim_C5_validate_amended (r : Reservation) (now : Int) :
    r.validateOk now = true ↔
      (0 < r.duration ∧ r.created ≠ 0 ∧ now ≤ r.created + r.duration) := by
  unfold Reservation.validateOk Reservation.validate Reservation.expired
  split_ifs with h1 h2 h3 <;> simp_all

theorem cacheGet_cacheSet (mem : List (String × Int)) (id : String)
    (now0 t : Int) (h : t ≤ now0 + cacheDefaultTTL) :
    cacheGet (cacheSet mem id now0) id t = true := by
  simp [cacheGet, cacheSet, assocFind, h]

theorem stepEngine_fresh (hj : Bool) (df pf : String → Bool)
    (st : EngineState) (t1 : Int) (r : Reservation)
    (hexp : r.expired t1 = false) (hdel : r.toDelete = false)
    (hfresh : cacheGet st.mem r.id t1 = false) :
    stepEngine hj df pf st (t1, .res false r) =
      { st with mem := cacheSet st.mem r.id t1 } := by
  have hhit : cacheGet (cacheSet st.mem r.id t1) r.id t1 = true :=
    cacheGet_cacheSet _ _ _ _ (by unfold cacheDefaultTTL; omega)
  simp [stepEngine, hexp, hdel, hfresh, hhit]

theorem stepEngine_cached (hj : Bool) (df pf : String → Bool)
    (st : EngineState) (t : Int) (r : Reservation)
    (hexp : r.expired t = false) (hdel : r.toDelete = false)
    (hhit : cacheGet st.mem r.id t = true) :
    stepEngine hj df pf st (t, .res false r) = st := by
  simp [stepEngine, hexp, hdel, hhit]

/-- Claim C2 counterexample: at now = 8 the reservation rBoundary has
created + duration = 8, so the spec's expiry predicate now ≥ created +
duration holds and the claim demands a decommissioner invocation; the
engine instead computes Expired with a strict comparison, takes the
provisioning path, and invokes neither the decommissioner nor the
provisioner (the dedup hack swallows the event). -/
theorem claim_C2_counterexample :
    specExpired rBoundary 8 = true ∧ rBoundary.toDelete = false ∧
    (stepEngine true noFail noFail engineInit (8, .res false rBoundary)).decommCalls = [] := by
  decide

/-- Claim C2 (amended): the engine computes expired as now strictly
greater than created + duration; whenever expired or to_delete holds the
engine invokes the decommissioner for the reservation, never invokes the
provisioner for it, and never persists it to the store; a decommission
error only adds a log line (the state transition is otherwise the same)
and the loop continues with the subsequent events. -/
theorem claim_C2_decommission_amended (hj : Bool) (df pf : String → Bool)
    (st : EngineState) (now : Int) (r : Reservation)
    (h : (r.expired now || r.toDelete) = true) :
    (stepEngine hj df pf st (now, .res false r)).decommCalls = st.decommCalls ++ [r.id] ∧
    (stepEngine hj df pf st (now, .res false r)).provisionCalls = st.provisionCalls ∧
    (stepEngine hj df pf st (now, .res false r)).store = st.store ∧
    (df r.id = false → stepEngine hj df pf st (now, .res false r) =
      { st with decommCalls := st.decommCalls ++ [r.id] }) ∧
    (df r.id = true → stepEngine hj df pf st (now, .res false r) =
      { st with decommCalls := st.decommCalls ++ [r.id],
                logs := st.logs ++ ["failed to decommission reservation"] }) ∧
    (∀ evs, runEngine hj df pf st ((now, .res false r) :: evs) =
      runEngine hj df pf (stepEngine hj df pf st (now, .res false r)) evs) := by
  refine ⟨?_, ?_, ?_, ?_, ?_, fun evs => rfl⟩ <;>
    simp only [stepEngine, h] <;>
    by_cases hdf : df r.id <;>
    simp [hdf]

/-- Witness for claim C2 (amended) at the to-delete reservation 12-1. -/
theorem claim_C2_decommission_amended_witness :
    (stepEngine true noFail noFail engineInit (20, .res false rToDelete)).decommCalls =
      engineInit.decommCalls ++ [rToDelete.id] :=
  (claim_C2_decommission_amended true noFail noFail engineInit 20 rToDelete (by decide)).1

/-- Claim C3 evaluation at the failing input: the source emits the
non-expired reservation 11-1 twice within the 30 minute TTL; the claim
(and the engine's own documentation) demands exactly one provisioner
invocation, but the loop performs zero, because right after marking the
cache it consults it again (part_005 lines 119 and 127) and that second
check always hits, making the provision call unreachable. -/
theorem claim_C3_zero_provisioner_calls :
    (runEngine true noFail noFail engineInit
      [(200, .res false rDup), (500, .res false rDup)]).provisionCalls = [] ∧
    (runEngine true noFail noFail engineInit
      [(200, .res false rDup), (500, .res false rDup)]).decommCalls = [] := by
  decide

/-- Claim C10: for a non-expired, non-to-delete reservation whose id is
not yet cached, processing the event marks the dedup cache (before any
validation or provisioner call, and regardless of the failure oracles,
which also shows the mark is never removed on failure); any re-emission
of the same id while the mark is within its TTL is skipped silently (the
state is unchanged) and the provisioner is not invoked for it - indeed
the first processing already records no provisioner call, so a second
invocation never happens. -/
theorem claim_C10_mark_then_skip (hj hj2 : Bool)
    (df pf df2 pf2 : String → Bool) (st : EngineState) (t1 t2 : Int)
    (r : Reservation) (hexp1 : r.expired t1 = false)
    (hdel : r.toDelete = false) (hfresh : cacheGet st.mem r.id t1 = false)
    (hexp2 : r.expired t2 = false) (httl : t2 ≤ t1 + cacheDefaultTTL) :
    (stepEngine hj df pf st (t1, .res false r)).mem = cacheSet st.mem r.id t1 ∧
    cacheGet (stepEngine hj df pf st (t1, .res false r)).mem r.id t2 = true ∧
    stepEngine hj2 df2 pf2 (stepEngine hj df pf st (t1, .res false r))
      (t2, .res false r) = stepEngine hj df pf st (t1, .res false r) ∧
    (stepEngine hj df pf st (t1, .res false r)).provisionCalls = st.provisionCalls := by
  have h1 := stepEngine_fresh hj df pf st t1 r hexp1 hdel hfresh
  have hhit : cacheGet (stepEngine hj df pf st (t1, .res false r)).mem r.id t2 = true := by
    rw [h1]
    exact cacheGet_cacheSet _ _ _ _ httl
  refine ⟨by rw [h1], hhit, ?_, by rw [h1]⟩
  exact stepEngine_cached hj2 df2 pf2 _ t2 r hexp2 hdel hhit

/-- Witness for claim C10 at the duplicate emission of 11-1. -/
theorem claim_C10_mark_then_skip_witness :
    stepEngine true noFail noFail
      (stepEngine true noFail noFail engineInit (200, .res false rDup))
      (500, .res false rDup) =
      stepEngine true noFail noFail engineInit (200, .res false rDup) :=
  (claim_C10_mark_then_skip true true noFail noFail noFail noFail engineInit
    200 500 rDup (by decide) (by decide) (by decide) (by decide) (by decide)).2.2.1

theorem stepEngine_no_last (hj : Bool) (df pf : String → Bool)
    (st : EngineState) (ev : Int × SourceItem)
    (hlast : ev.2.isLast = false) (hap : st.allProcessed = false) :
    (stepEngine hj df pf st ev).allProcessed = false ∧
    (stepEngine hj df pf st ev).cleanupCalls = st.cleanupCalls := by
  obtain ⟨now, item⟩ := ev
  cases item with
  | tick => simp [stepEngine, doCleanup, hap]
  | res last r =>
    cases last with
    | true => simp [SourceItem.isLast] at hlast
    | false =>
      simp only [stepEngine]
      split_ifs <;>
        first
          | exact ⟨hap, rfl⟩
          | (rcases hv : r.validate now with u | msg <;> simp [hv, hap])

theorem runEngine_no_last (hj : Bool) (df pf : String → Bool)
    (evs : List (Int × SourceItem)) (st : EngineState)
    (hap : st.allProcessed = false)
    (h : ∀ ev ∈ evs, ev.2.isLast = false) :
    (runEngine hj df pf st evs).cleanupCalls = st.cleanupCalls := by
  induction evs generalizing st with
  | nil => rfl
  | cons ev rest ih =>
    have h1 := stepEngine_no_last hj df pf st ev (h ev (by simp)) hap
    have hrw : runEngine hj df pf st (ev :: rest) =
        runEngine hj df pf (stepEngine hj df pf st ev) rest := rfl
    rw [hrw, ih _ h1.1 (fun e he => h e (by simp [he]))]
    exact h1.2

/-- Claim C4 counterexample: in the run of claim C4's own scenario
(three historical reservations, the last=true sentinel, one midnight
tick, janitor configured) the janitor's cleanup is invoked twice, not
exactly once: processing the sentinel itself pushes a trigger onto the
cleanUp channel (part_005 line 94) which runs cleanup once the latch is
set, and the midnight tick then runs it again. -/
theorem claim_C4_counterexample :
    (runEngine true noFail noFail engineInit inputsC4).cleanupCalls = 2 ∧
    (runEngine true noFail noFail engineInit inputsC4).cleanupCalls ≠ 1 := by
  decide

/-- Claim C4 (amended): cleanup is never invoked before the source has
emitted the last=true sentinel (in any run whose items carry no
sentinel, the cleanup count stays zero: midnight triggers arriving while
the allWorkloadsProcessed latch is clear are dropped); in the run where
the source emits reservations, then the sentinel, then one midnight
tick, cleanup is invoked exactly twice after the sentinel - once kicked
off by the sentinel's own cleanup trigger and once by the tick. -/
theorem claim_C4_cleanup_gated_amended :
    (∀ (hj : Bool) (df pf : String → Bool) (evs : List (Int × SourceItem)),
      (∀ ev ∈ evs, ev.2.isLast = false) →
      (runEngine hj df pf engineInit evs).cleanupCalls = 0) ∧
    (runEngine true noFail noFail engineInit inputsC4).cleanupCalls = 2 := by
  constructor
  · intro hj df pf evs h
    exact runEngine_no_last hj df pf evs engineInit rfl h
  · decide

/-- Witness for claim C4 (amended): a sentinel-free run with a midnight
tick performs no cleanup. -/
theorem claim_C4_cleanup_gated_amended_witness :
    (runEngine true noFail noFail engineInit
      [(0, .res false rContA), (5, .tick)]).cleanupCalls = 0 :=
  claim_C4_cleanup_gated_amended.1 true noFail noFail
    [(0, .res false rContA), (5, .tick)] (by decide)

/-- Claim C6: during volume cleanup the janitor never deletes a
subvolume whose path is in the protected set (root-fs paths and /mnt/
mount sources of all running containers, collected before any deletion
decision), whatever the authoritative lookup answers - including
not-found - and across any number of repeated cleanup runs. -/
theorem claim_C6_protected_never_deleted (containers : List ContainerInspect)
    (lookups : List (String → LookupResult)) (volumes : List VolumeFS)
    (v : VolumeFS) (hprot : v.path ∈ protectedVolumesFromContainers containers)
    (deleted : List VolumeFS)
    (hrun : deleted ∈ janitorVolumeRuns containers lookups volumes) :
    v ∉ deleted := by
  intro hmem
  rcases List.mem_map.mp hrun with ⟨lookup, hlk, rfl⟩
  unfold cleanupVolumes at hmem
  rcases List.mem_filter.mp hmem with ⟨hv, hdel⟩
  unfold volumeAction at hdel
  rw [if_pos hprot] at hdel
  exact absurd hdel (by decide)

/-- Witness for claim C6: the subvolume backing a running container's
root filesystem survives a cleanup run in which the lookup answers 404
for everything. -/
theorem claim_C6_protected_never_deleted_witness :
    volProtected ∉ cleanupVolumes [contRunning] lookup404 [volProtected] :=
  claim_C6_protected_never_deleted [contRunning] [lookup404] [volProtected]
    volProtected (by decide) (cleanupVolumes [contRunning] lookup404 [volProtected])
    (List.mem_singleton.mpr rfl)

/-- Claim C7: for every vdisk cleanup candidate (a disk whose name
carries a valid reservation-id prefix) the janitor's delete decision
follows the authoritative-lookup table: HTTP 404 deletes, a found
reservation with to_delete true deletes, a found reservation with
to_delete false keeps, and any other lookup error keeps the candidate
(it is logged and skipped, and the per-item map of cleanupVdisks
continues with the next candidate). -/
theorem claim_C7_vdisk_decision_table (lookup : String → LookupResult)
    (v : VDisk) (gwid : String) (hid : extractVdiskID v.name = some gwid) :
    vdiskOutcome lookup v =
      (match lookup gwid with
       | .found td => if td then .delete else .keep
       | .httpErrorCode status => if status = 404 then .delete else .keep
       | .plainError => .keep) := by
  unfold vdiskOutcome
  rw [hid]
  cases hl : lookup gwid with
  | found td => cases td <;> simp [checkToDelete, hl]
  | httpErrorCode status =>
    by_cases h404 : status = 404 <;> simp [checkToDelete, hl, h404]
  | plainError => simp [checkToDelete, hl]

/-- Witness for claim C7: a disk named 10-1-disk whose lookup answers
404 is deleted. -/
theorem claim_C7_vdisk_decision_table_witness :
    vdiskOutcome lookup404 ⟨"10-1-disk"⟩ = .delete :=
  (claim_C7_vdisk_decision_table lookup404 ⟨"10-1-disk"⟩ "10-1" (by decide)).trans
    (by decide)

/-- Claim C8: the store's get accepts exactly the on-disk records whose
version is at most 1.0.0 - a file without the versioned header is
treated as legacy version 0.0.0 and its JSON payload is decoded from the
start of the file - and for any record whose version is greater than
1.0.0 get fails with an error and returns no reservation. (Versions are
totally ordered, so the second and third conjuncts together say get
succeeds exactly on versions at most 1.0.0 when the payload decodes.) -/
theorem claim_C8_version_gate (f : DiskRecord) (r0 : Reservation)
    (hp : f.payload = some r0) :
    (f.header = none → FSStore.getRecord f = .ok r0) ∧
    (SemVer.le (readerVersion f) reservationSchemaV1 →
      FSStore.getRecord f = .ok r0) ∧
    (SemVer.lt reservationSchemaV1 (readerVersion f) →
      FSStore.getRecord f = .error "unknown reservation object version") := by
  refine ⟨?_, ?_, ?_⟩
  · intro hh
    unfold FSStore.getRecord
    rw [hp, if_pos]
    unfold readerVersion
    rw [hh]
    decide
  · intro hle
    unfold FSStore.getRecord
    rw [hp, if_pos hle]
  · intro hlt
    have hnle : ¬ SemVer.le (readerVersion f) reservationSchemaV1 := by
      unfold SemVer.lt at hlt
      unfold SemVer.le
      unfold reservationSchemaV1 at *
      omega
    unfold FSStore.getRecord
    rw [if_neg hnle]

/-- Witness for claim C8: a legacy record decodes, a 2.0.0 record is
rejected. -/
theorem claim_C8_version_gate_witness :
    FSStore.getRecord recLegacy = .ok rContA ∧
    FSStore.getRecord recV2 = .error "unknown reservation object version" :=
  ⟨(claim_C8_version_gate recLegacy rContA rfl).1 rfl,
   (claim_C8_version_gate recV2 rContA rfl).2.2 (by decide)⟩

theorem pubIPTail_eq_some (cs : List Char) (ds : List Char) :
    pubIPTail cs = some ds ↔
      ds ≠ [] ∧ ds.all Char.isDigit = true ∧ cs = ds ++ ['-', '1'] := by
  induction cs generalizing ds with
  | nil =>
    simp only [pubIPTail]
    constructor
    · intro h
      exact absurd h (by simp)
    · rintro ⟨hne, _, heq⟩
      rcases ds with _ | ⟨d, ds0⟩
      · exact absurd rfl hne
      · simp at heq
  | cons c cs ih =>
    simp only [pubIPTail]
    by_cases hd : c.isDigit
    · rw [if_pos hd]
      by_cases hcs : cs = ['-', '1']
      · rw [if_pos hcs]
        subst hcs
        constructor
        · intro h
          injection h with h2
          subst h2
          exact ⟨by simp, by simp [hd], rfl⟩
        · rintro ⟨hne, hdig, heq⟩
          have hds : ds = [c] := by
            have h2 : ds ++ ['-', '1'] = [c] ++ ['-', '1'] := by
              rw [← heq]
              rfl
            exact List.append_cancel_right h2
          subst hds
          rfl
      · rw [if_neg hcs]
        constructor
        · intro h
          rcases Option.map_eq_some'.mp h with ⟨ds0, hds0, rfl⟩
          rcases (ih ds0).mp hds0 with ⟨hne0, hdig0, rfl⟩
          exact ⟨by simp, by simp [List.all_cons, hd, hdig0], by simp⟩
        · rintro ⟨hne, hdig, heq⟩
          rcases ds with _ | ⟨d, ds0⟩
          · exact absurd rfl hne
          · simp only [List.cons_append] at heq
            injection heq with h1 h2
            subst h1
            rcases ds0 with _ | ⟨d2, ds1⟩
            · simp at h2
              exact absurd h2 hcs
            · have hdig0 : (d2 :: ds1).all Char.isDigit = true := by
                simp [List.all_cons, Bool.and_eq_true] at hdig ⊢
                tauto
              have hrec : pubIPTail cs = some (d2 :: ds1) :=
                (ih (d2 :: ds1)).mpr ⟨by simp, hdig0, h2⟩
              rw [hrec]
              rfl
    · rw [if_neg hd]
      constructor
      · intro h
        exact absurd h (by simp)
      · rintro ⟨hne, hdig, heq⟩
        rcases ds with _ | ⟨d, ds0⟩
        · exact absurd rfl hne
        · simp only [List.cons_append] at heq
          injection heq with h1 h2
          subst h1
          simp [List.all_cons, Bool.and_eq_true] at hdig
          exact absurd hdig.1 hd

theorem pubIPMatchL_eq_some (cs gs : List Char) :
    pubIPMatchL cs = some gs ↔
      ∃ ds : List Char, ds ≠ [] ∧ ds.all Char.isDigit = true ∧
        cs = 'p' :: '-' :: (ds ++ ['-', '1']) ∧ gs = ds ++ ['-', '1'] := by
  rcases cs with _ | ⟨c1, _ | ⟨c2, rest⟩⟩
  · simp [pubIPMatchL]
  · simp [pubIPMatchL]
  · simp only [pubIPMatchL]
    by_cases hpc : c1 = 'p' ∧ c2 = '-'
    · obtain ⟨rfl, rfl⟩ := hpc
      rw [if_pos ⟨rfl, rfl⟩]
      constructor
      · intro h
        rcases Option.map_eq_some'.mp h with ⟨ds, hds, rfl⟩
        rcases (pubIPTail_eq_some rest ds).mp hds with ⟨hne, hdig, rfl⟩
        exact ⟨ds, hne, hdig, rfl, rfl⟩
      · rintro ⟨ds, hne, hdig, hcseq, rfl⟩
        have hrest : rest = ds ++ ['-', '1'] := by
          simp at hcseq
          exact hcseq
        rw [(pubIPTail_eq_some rest ds).mpr ⟨hne, hdig, hrest⟩]
        rfl
    · rw [if_neg hpc]
      constructor
      · intro h
        exact absurd h (by simp)
      · rintro ⟨ds, _, _, hcseq, _⟩
        injection hcseq with e1 h
        injection h with e2 _
        exact absurd ⟨e1, e2⟩ hpc

/-- Claim C9 counterexample: the interface name p-5-2 matches the
spec's regular expression `^p-(\d+-\d+)$` with captured group 5-2, so
the claim makes it a tap-deletion candidate with reservation id 5-2, but
the source's pubIPIDMatch (`^p-(\d+-1)$`, cleanup.go line 23) rejects it
and the janitor never considers it. -/
theorem claim_C9_counterexample :
    specPubIPMatch "p-5-2" = some "5-2" ∧ pubIPIDMatch "p-5-2" = none ∧
    pubIPCandidates ["p-5-2"] = [] := by
  decide

/-- Claim C9 (amended): during public-IP cleanup the janitor considers
exactly those interfaces whose name matches `^p-(\d+-1)$` - the workload
part of the captured group is the literal digit 1 - and for each match
it uses the captured group as the reservation id for the authoritative
lookup; non-matching interfaces are never candidates. The second
conjunct characterises the matcher: it accepts precisely the names of
shape p-(digits)-1, capturing (digits)-1. -/
theorem claim_C9_tap_regex_amended (links : List String) (nm id : String) :
    ((nm, id) ∈ pubIPCandidates links ↔ nm ∈ links ∧ pubIPIDMatch nm = some id) ∧
    (pubIPIDMatch nm = some id ↔
      ∃ ds : List Char, ds ≠ [] ∧ ds.all Char.isDigit = true ∧
        nm.toList = 'p' :: '-' :: (ds ++ ['-', '1']) ∧
        id = String.mk (ds ++ ['-', '1'])) := by
  constructor
  · unfold pubIPCandidates
    rw [List.mem_filterMap]
    constructor
    · rintro ⟨a, ha, hmap⟩
      rcases Option.map_eq_some'.mp hmap with ⟨i, hi, heq⟩
      injection heq with h1 h2
      subst h1
      subst h2
      exact ⟨ha, hi⟩
    · rintro ⟨hnm, hmatch⟩
      refine ⟨nm, hnm, ?_⟩
      rw [hmatch]
      rfl
  · unfold pubIPIDMatch
    constructor
    · intro h
      rcases Option.map_eq_some'.mp h with ⟨gs, hgs, rfl⟩
      rcases (pubIPMatchL_eq_some nm.toList gs).mp hgs with ⟨ds, hne, hdig, hl, rfl⟩
      exact ⟨ds, hne, hdig, hl, rfl⟩
    · rintro ⟨ds, hne, hdig, hl, rfl⟩
      rw [(pubIPMatchL_eq_some nm.toList (ds ++ ['-', '1'])).mpr
        ⟨ds, hne, hdig, hl, rfl⟩]
      rfl

end ZosProvision
